import Mathlib

set_option maxHeartbeats 1000000

/-! Verification development for tau-cli (src/main.rs): a shallow embedding of
the record-streaming input abstraction, the rule-validation startup sequence,
the output routing / file-lifecycle policy and the driver loop, together with
theorems about their behaviour. -/

/-- A JSON-like structured value, one decoded input record.  Modelled from the
spec: records are opaque JSON trees; the concrete decoding is performed by the
external serde_json collaborator (fractional and exponent number forms are not
needed by any property and are omitted). -/
inductive Json where
  | null
  | bool (b : Bool)
  | num (n : Int)
  | str (s : String)
  | arr (elems : List Json)
  | obj (fields : List (String × Json))

mutual

/-- Compact serialization of one record, as written by
writeln!(file, "{}", json.to_string()) in output_match. -/
def Json.toString : Json → String
  | .null => "null"
  | .bool b => cond b "true" "false"
  | .num n => ToString.toString n
  | .str s => "\"" ++ s ++ "\""
  | .arr xs => "[" ++ Json.elemsToString xs ++ "]"
  | .obj fs => "\x7b" ++ Json.fieldsToString fs ++ "\x7d"

/-- Comma-separated serialization of array elements. -/
def Json.elemsToString : List Json → String
  | [] => ""
  | [x] => Json.toString x
  | x :: y :: xs => Json.toString x ++ "," ++ Json.elemsToString (y :: xs)

/-- Comma-separated serialization of object members. -/
def Json.fieldsToString : List (String × Json) → String
  | [] => ""
  | [(k, v)] => "\"" ++ k ++ "\":" ++ Json.toString v
  | (k, v) :: f :: fs =>
      "\"" ++ k ++ "\":" ++ Json.toString v ++ "," ++ Json.fieldsToString (f :: fs)

end

/-- Skip leading JSON whitespace. -/
def skipWs : List Char → List Char
  | c :: cs => if c = ' ' ∨ c = '\t' ∨ c = '\n' ∨ c = '\r' then skipWs cs else c :: cs
  | [] => []

/-- Resolve a character appearing after a backslash in a JSON string literal. -/
def unescapeChar (c : Char) : Char :=
  if c = 'n' then '\n' else if c = 't' then '\t' else if c = 'r' then '\r' else c

/-- Parse the body of a JSON string after the opening quote, returning the
string contents and the remaining characters. -/
def parseStringBody : List Char → Option (List Char × List Char)
  | [] => none
  | '"' :: cs => some ([], cs)
  | '\\' :: [] => none
  | '\\' :: e :: cs => (parseStringBody cs).map (fun r => (unescapeChar e :: r.1, r.2))
  | c :: cs => (parseStringBody cs).map (fun r => (c :: r.1, r.2))

/-- Numeric value of a decimal digit character. -/
def digitVal (c : Char) : Nat := c.toNat - '0'.toNat

/-- Split off a maximal run of leading decimal digits. -/
def takeDigits : List Char → List Char × List Char
  | c :: cs =>
    if c.isDigit then
      let r := takeDigits cs
      (c :: r.1, r.2)
    else ([], c :: cs)
  | [] => ([], [])

/-- Accumulate a digit run into a natural number. -/
def digitsToNat (acc : Nat) : List Char → Nat
  | [] => acc
  | c :: cs => digitsToNat (acc * 10 + digitVal c) cs

/-- Parse a JSON integer: an optional minus sign followed by one or more digits. -/
def parseNumber : List Char → Option (Int × List Char)
  | '-' :: cs =>
    match takeDigits cs with
    | ([], _) => none
    | (ds, rest) => some (-(Int.ofNat (digitsToNat 0 ds)), rest)
  | cs =>
    match takeDigits cs with
    | ([], _) => none
    | (ds, rest) => some (Int.ofNat (digitsToNat 0 ds), rest)

mutual

/-- Modelled from the spec: strict JSON-line decoding ("each input line must be
a single complete JSON value"), standing in for the external
serde_json::from_str collaborator.  Fuel bounds the nesting depth. -/
def parseValue : Nat → List Char → Option (Json × List Char)
  | 0, _ => none
  | fuel + 1, cs =>
    match skipWs cs with
    | 'n' :: 'u' :: 'l' :: 'l' :: rest => some (.null, rest)
    | 't' :: 'r' :: 'u' :: 'e' :: rest => some (.bool true, rest)
    | 'f' :: 'a' :: 'l' :: 's' :: 'e' :: rest => some (.bool false, rest)
    | '"' :: rest => (parseStringBody rest).map (fun r => (.str (String.mk r.1), r.2))
    | '[' :: rest =>
      match skipWs rest with
      | ']' :: rest2 => some (.arr [], rest2)
      | cs2 => (parseElems fuel cs2).map (fun r => (.arr r.1, r.2))
    | '\x7b' :: rest =>
      match skipWs rest with
      | '\x7d' :: rest2 => some (.obj [], rest2)
      | cs2 => (parseMembers fuel cs2).map (fun r => (.obj r.1, r.2))
    | c :: rest =>
      if c = '-' ∨ c.isDigit then (parseNumber (c :: rest)).map (fun r => (.num r.1, r.2))
      else none
    | [] => none

/-- Parse the comma-separated elements of a non-empty JSON array. -/
def parseElems : Nat → List Char → Option (List Json × List Char)
  | 0, _ => none
  | fuel + 1, cs => do
    let (v, rest) ← parseValue fuel cs
    match skipWs rest with
    | ',' :: rest2 => (parseElems fuel rest2).map (fun r => (v :: r.1, r.2))
    | ']' :: rest2 => some ([v], rest2)
    | _ => none

/-- Parse the comma-separated members of a non-empty JSON object. -/
def parseMembers : Nat → List Char → Option (List (String × Json) × List Char)
  | 0, _ => none
  | fuel + 1, cs =>
    match skipWs cs with
    | '"' :: rest => do
      let (k, rest2) ← parseStringBody rest
      match skipWs rest2 with
      | ':' :: rest3 => do
        let (v, rest4) ← parseValue fuel rest3
        match skipWs rest4 with
        | ',' :: rest5 => (parseMembers fuel rest5).map (fun r => ((String.mk k, v) :: r.1, r.2))
        | '\x7d' :: rest5 => some ([(String.mk k, v)], rest5)
        | _ => none
      | _ => none
    | _ => none

end

/-- serde_json::from_str on one input line: the line must hold exactly one
complete JSON value (an empty or blank line therefore fails to decode). -/
def from_str (s : String) : Except String Json :=
  match parseValue (2 * s.length + 2) s.data with
  | some (j, rest) =>
    match skipWs rest with
    | [] => .ok j
    | _ => .error ("trailing characters in input line " ++ s)
  | none => .error ("EOF while parsing a value in input line " ++ s)

/-- Rust str::trim_end applied to the line produced by read_line: drops the
trailing line terminator and any other trailing whitespace. -/
def trimEnd (s : String) : String :=
  String.mk ((s.data.reverse.dropWhile Char.isWhitespace).reverse)

/-- A compiled rule handle from the external tau_engine Rule Registry: the core
treats it as an opaque matching predicate over records
(Rule::matches(record) -> bool). -/
abbrev Rule := Json → Bool

/-- type ValidatedRules = Vec<(Option<Rule>, String)>: one entry per attempted
rule source, pairing the compiled rule (None when loading or validation
failed) with the rule's source filename. -/
abbrev ValidatedRules := List (Option Rule × String)

/-- One path from the --rules option, together with the file-system facts the
startup code observes about it: fs::read_to_string's result (none when the
read fails) and path.file_name().and_then(to_str) (none when the filename is
not displayable). -/
structure RuleSource where
  display : String
  content : Option String
  fileName : Option String
deriving DecidableEq

instance exceptDecEq {ε α : Type} [DecidableEq ε] [DecidableEq α] :
    DecidableEq (Except ε α) := fun a b =>
  match a, b with
  | .ok x, .ok y =>
    if h : x = y then .isTrue (by rw [h]) else .isFalse (fun hc => h (Except.ok.inj hc))
  | .error x, .error y =>
    if h : x = y then .isTrue (by rw [h]) else .isFalse (fun hc => h (Except.error.inj hc))
  | .ok _, .error _ => .isFalse (fun hc => Except.noConfusion hc)
  | .error _, .ok _ => .isFalse (fun hc => Except.noConfusion hc)

/-- One path from the --input option: File::open either fails (error carries
the OS message) or produces the file's lines, each still carrying its
trailing line terminator as read_line yields them. -/
structure InputFile where
  display : String
  content : Except String (List String)
deriving DecidableEq

/-- enum Input: the Record Source.  CommandLine wraps the interactive stdin
line stream (lines already stripped of their terminator, as io::Lines yields
them); Files holds the pending paths (consumed back-to-front by Vec::pop) and
the line-buffered reader over the currently open file. -/
inductive Input where
  | commandLine (stdinLines : List String)
  | files (paths : List InputFile) (buffer : List String)
deriving DecidableEq

/-- A subset of std::io::ErrorKind, as classified by the output-file setup
code: the two kinds the source names plus representative other OS failures. -/
inductive IOErrorKind where
  | alreadyExists
  | notFound
  | permissionDenied
  | interrupted
deriving DecidableEq

/-- format!("\x7b:?\x7d", e.kind()): the Debug rendering of an io::ErrorKind. -/
def kindDebug : IOErrorKind → String
  | .alreadyExists => "AlreadyExists"
  | .notFound => "NotFound"
  | .permissionDenied => "PermissionDenied"
  | .interrupted => "Interrupted"

/-- The file-system facts the startup code observes about one output
destination: whether the file already exists (and with which contents),
whether its parent directory exists, any other OS-level failure that an open
would hit, and whether later writes to the opened handle fail. -/
structure FileState where
  present : Bool
  parentExists : Bool
  osErr : Option IOErrorKind
  writeFails : Bool
  contents : List String
deriving DecidableEq

/-- An open output file handle: the lines written through it so far (a fresh
create or truncate starts empty) and whether writes to it fail. -/
structure OutFile where
  written : List String
  writeFails : Bool
deriving DecidableEq

/-- enum Output: the Match Sink.  CommandLine wraps stdout; Files holds the
Vec<(fs::File, String)> of open handles paired with their rule filenames. -/
inductive Output where
  | commandLine (dest : OutFile)
  | files (entries : List (OutFile × String))
deriving DecidableEq

/-- The --output option together with the observed file system: absent
(stdout), a non-directory path (single output file), or an existing directory
(one file per rule, states looked up by rule filename). -/
inductive OutputSpec where
  | stdout
  | file (display : String) (st : FileState)
  | dir (display : String) (ent : String → FileState)

/-- struct Opt, restricted to the fields the core logic reads (argument
parsing itself is out of scope). -/
structure Opt where
  rules : List RuleSource
  input : Option (List InputFile)
  overwrite : Bool
  validate : Bool
  output : OutputSpec

/-- Input::next in Files mode (main.rs lines 61-83): try to read a line from
the current buffer; at end of file pop the next pending path (Vec::pop takes
the last element), open it and retry; a failed open yields one error item; a
read line is trimmed of its terminator and decoded. -/
def filesNext (paths : List InputFile) (buffer : List String) :
    Option (Except String Json × (List InputFile × List String)) :=
  match buffer with
  | line :: rest => some (from_str (trimEnd line), (paths, rest))
  | [] =>
    match paths with
    | [] => none
    | q :: qs =>
      match ((q :: qs).getLast (by simp)).content with
      | .ok ls => filesNext (q :: qs).dropLast ls
      | .error m => some (.error m, ((q :: qs).dropLast, []))
termination_by paths.length
decreasing_by
  simp only [List.length_dropLast, List.length_cons]
  omega

/-- Input::next (main.rs lines 52-86): one pull from the Record Source,
returning the yielded item and the successor state, or none at exhaustion. -/
def Input.next : Input → Option (Except String Json × Input)
  | .commandLine [] => none
  | .commandLine (l :: ls) => some (from_str l, .commandLine ls)
  | .files paths buffer =>
    (filesNext paths buffer).map (fun x => (x.1, .files x.2.1 x.2.2))

/-- Driving the Files-mode Record Source to exhaustion (the driver loop's
while-let over Input::next): the list of all yielded items in order. -/
def filesRun : List InputFile → List String → List (Except String Json)
  | paths, line :: rest => from_str (trimEnd line) :: filesRun paths rest
  | [], [] => []
  | q :: qs, [] =>
    match ((q :: qs).getLast (by simp)).content with
    | .ok ls => filesRun (q :: qs).dropLast ls
    | .error m => .error m :: filesRun (q :: qs).dropLast []
termination_by paths buffer => (paths.length, buffer.length)
decreasing_by
  all_goals
    simp only [Prod.lex_iff, List.length_dropLast, List.length_cons, List.length_nil, true_and]
  all_goals omega

/-- Driving the Record Source to exhaustion: in interactive mode every stdin
line is decoded; in Files mode the file chain is drained. -/
def Input.run : Input → List (Except String Json)
  | .commandLine ls => ls.map from_str
  | .files paths buffer => filesRun paths buffer

example : filesRun [⟨"a", .ok ["1\n"]⟩] ["2\n", "3\n"]
    = [from_str "2", from_str "3", from_str "1"] := by
  simp [filesRun, trimEnd]

/-- The rule-loading loop of Opt::validate_rules (main.rs lines 96-130): for
each rule path, read its contents (a read failure aborts startup), compile and
validate it through the external registry (reg collapses Rule::load plus
Rule::validate: some rule on Ok(r) with validate() == Ok(true), none
otherwise), and record (rule, filename); a filename that cannot be displayed
aborts startup. -/
def loadRules (reg : String → Option Rule) : List RuleSource → Except String ValidatedRules
  | [] => .ok []
  | path :: rest =>
    match path.content with
    | none => .error ("Unable to read data from " ++ path.display ++ ".")
    | some text =>
      let rule := reg text
      match path.fileName with
      | some f => (loadRules reg rest).map (fun v => (rule, f) :: v)
      | none => .error ("Unable to validate " ++ path.display ++ " as a rule")

/-- Construction of inner_input (main.rs lines 132-150): with --input, pop the
last supplied path and open it as the initial buffered reader, keeping the
remaining paths pending; an empty path list aborts startup (with the
rule-files message the source actually emits); without --input, read stdin. -/
def mkInnerInput (input : Option (List InputFile)) (stdinLines : List String) :
    Except String Input :=
  match input with
  | some v =>
    match v.getLast? with
    | some p =>
      match p.content with
      | .ok ls => .ok (.files v.dropLast ls)
      | .error _ => .error ("Unable to read input file at " ++ p.display ++ ".")
    | none =>
      .error "No rule files provided, use -r or --rules to specify one or more rules"
  | none => .ok (.commandLine stdinLines)

/-- Modelled from the spec: the OS-level semantics of
OpenOptions::new().write(true).create_new(!overwrite).create(overwrite)
.truncate(overwrite).open(path) (the std library is external to the
repository): without overwrite the open fails on an existing target; with
overwrite an existing target is truncated; a missing parent directory or
another OS failure fails either way; success yields a fresh empty handle. -/
def openOutputFile (overwrite : Bool) (st : FileState) : Except IOErrorKind OutFile :=
  if st.parentExists = false then .error .notFound
  else if st.present = true ∧ overwrite = false then .error .alreadyExists
  else
    match st.osErr with
    | some k => .error k
    | none => .ok ⟨[], st.writeFails⟩

/-- PathBuf::join for the directory output mode: p.join(filename). -/
def joinPath (d f : String) : String := d ++ "/" ++ f

/-- The error classification of directory-mode output file creation
(main.rs lines 177-184): AlreadyExists and NotFound get dedicated messages,
any other kind is rendered with its Debug form. -/
def dirErrMsg (d f : String) : IOErrorKind → String
  | .alreadyExists =>
      joinPath d f ++ " already exists, either remove this file or re-run with the -f / --overwrite flag "
  | .notFound => "Part of the path to " ++ joinPath d f ++ " does not exist"
  | k => kindDebug k

/-- Directory-mode output setup (main.rs lines 165-190): one file is opened
per entry of validated_rules, named after the rule's source filename, with the
classified error messages on failure. -/
def mkDirFiles (overwrite : Bool) (d : String) (ent : String → FileState) :
    ValidatedRules → Except String (List (OutFile × String))
  | [] => .ok []
  | (_, filename) :: rest =>
    match openOutputFile overwrite (ent filename) with
    | .error k => .error (dirErrMsg d filename k)
    | .ok f => (mkDirFiles overwrite d ent rest).map (fun v => (f, filename) :: v)

/-- Construction of inner_output (main.rs lines 152-193): no --output writes
to stdout; a non-directory path opens a single file (any failure collapsed to
one generic message) stored under the empty rule name; a directory opens one
file per validated_rules entry. -/
def mkInnerOutput (overwrite : Bool) (table : ValidatedRules) (spec : OutputSpec) :
    Except String Output :=
  match spec with
  | .stdout => .ok (.commandLine ⟨[], false⟩)
  | .file d st =>
    match openOutputFile overwrite st with
    | .ok f => .ok (.files [(f, "")])
    | .error _ => .error ("Could not create output file at " ++ d)
  | .dir d ent => (mkDirFiles overwrite d ent table).map Output.files

/-- format!("\x7b:?\x7d", self.rules): the Debug rendering of the attempted
rule path list. -/
def reprPaths (rules : List RuleSource) : String :=
  "[" ++ String.intercalate ", " (rules.map (fun r => "\"" ++ r.display ++ "\"")) ++ "]"

/-- Opt::validate_rules (main.rs lines 94-202): load and record every rule,
construct the Record Source and the Match Sink, then abort with the
could-not-validate error when the recorded rule table is empty. -/
def Opt.validate_rules (reg : String → Option Rule) (stdinLines : List String) (o : Opt) :
    Except String (Input × Output × ValidatedRules) :=
  match loadRules reg o.rules with
  | .error e => .error e
  | .ok validated_rules =>
    match mkInnerInput o.input stdinLines with
    | .error e => .error e
    | .ok inner_input =>
      match mkInnerOutput o.overwrite validated_rules o.output with
      | .error e => .error e
      | .ok inner_output =>
        if validated_rules.isEmpty then
          .error ("Could not validate any of the following rules: " ++ reprPaths o.rules)
        else .ok (inner_input, inner_output, validated_rules)

/-- The write loop inside Opt::output_match over the FileSet entries: an entry
is written when its stored name equals the supplied rule name or the set has
exactly one entry; the first write failure returns early, leaving later
entries untouched. -/
def writeEntries (line : String) (rule_filename : String) (len : Nat) :
    List (OutFile × String) → List (OutFile × String) × Except (Option String) Unit
  | [] => ([], .ok ())
  | (file, filename) :: rest =>
    if filename = rule_filename ∨ len = 1 then
      if file.writeFails then ((file, filename) :: rest, .error (some "write error"))
      else
        let r := writeEntries line rule_filename len rest
        ((⟨file.written ++ [line], file.writeFails⟩, filename) :: r.1, r.2)
    else
      let r := writeEntries line rule_filename len rest
      ((file, filename) :: r.1, r.2)

/-- Opt::output_match (main.rs lines 203-224): route one matched record,
serialized by to_string, to the sink; Err(None) marks a never-constructed
sink.  The pair returns the sink after the call (writes mutate it in place)
and the call's result. -/
def Opt.output_match (inner : Option Output) (json : Json) (rule_filename : String) :
    Option Output × Except (Option String) Unit :=
  match inner with
  | some (.files o) =>
    let r := writeEntries (Json.toString json) rule_filename o.length o
    (some (.files r.1), r.2)
  | some (.commandLine f) =>
    if f.writeFails then (some (.commandLine f), .error (some "write error"))
    else (some (.commandLine ⟨f.written ++ [Json.toString json], f.writeFails⟩), .ok ())
  | none => (none, .error none)

/-- The per-record rule scan of the main loop (main.rs lines 256-265): every
validated rule entry is evaluated in load order; each match is dispatched to
the sink; only a write failure of the form Err(Some(e)) is fatal and stops the
scan (Err(None) is silently ignored by the if-let). -/
def processRecord : Option Output → ValidatedRules → Json → Option Output × Option String
  | inner, [], _ => (inner, none)
  | inner, (rule, path) :: rest, j =>
    match rule with
    | some r =>
      if r j then
        match Opt.output_match inner j path with
        | (inner2, .error (some e)) => (inner2, some e)
        | (inner2, _) => processRecord inner2 rest j
      else processRecord inner rest j
    | none => processRecord inner rest j

/-- Outcome of the driver loop: final sink state, stderr reports in order,
some 1 when the loop exited the process on a fatal write failure (none when
the source was drained), and how many records were pulled from the source. -/
structure LoopResult where
  out : Option Output
  stderrLines : List String
  exitCode : Option Nat
  processed : Nat
deriving DecidableEq

/-- The main loop (main.rs lines 253-269): pull records until the source is
exhausted; a decode or read error is reported and the loop continues; a
successful record is scanned against all rules; a fatal write failure is
reported and the process exits with status 1 immediately. -/
def mainLoop : Option Output → ValidatedRules → List (Except String Json) → LoopResult
  | out, _, [] => ⟨out, [], none, 0⟩
  | out, table, .ok j :: rest =>
    match processRecord out table j with
    | (out2, some e) =>
      ⟨out2, ["An error occured whilst outputting data, " ++ e], some 1, 1⟩
    | (out2, none) =>
      let r := mainLoop out2 table rest
      ⟨r.out, r.stderrLines, r.exitCode, r.processed + 1⟩
  | out, table, .error e :: rest =>
    let r := mainLoop out table rest
    ⟨r.out, e :: r.stderrLines, r.exitCode, r.processed + 1⟩

/-- Observable outcome of one process run: exit status, the stdout lines
printed directly by main (the validate-only report), the stderr lines, the
final Match Sink state (none when startup aborted before building it), and
the number of records pulled from the Record Source. -/
structure MainResult where
  exitCode : Nat
  stdoutLines : List String
  stderrLines : List String
  output : Option Output
  processed : Nat
deriving DecidableEq

/-- fn main (main.rs lines 237-271): run Opt::validate_rules (exit 1 on its
error), in validate-only mode print the (rule name, is valid) report and exit
0, otherwise drive the main loop over the Record Source. -/
def runMain (reg : String → Option Rule) (stdinLines : List String) (o : Opt) : MainResult :=
  match Opt.validate_rules reg stdinLines o with
  | .error e => ⟨1, [], [e], none, 0⟩
  | .ok (inp, out, table) =>
    if o.validate then
      ⟨0, "Rule Name, Is Valid" ::
          table.map (fun e => e.2 ++ ", " ++ cond e.1.isSome "true" "false"),
        [], some out, 0⟩
    else
      let r := mainLoop (some out) table inp.run
      ⟨r.exitCode.getD 0, [], r.stderrLines, r.out, r.processed⟩

/-- The lines of an input file in the model (empty for an unreadable file):
used to state the Record Source properties. -/
def fileLines (f : InputFile) : List String :=
  match f.content with
  | .ok ls => ls
  | .error _ => []

/-- A rule registry on which every rule source fails to load or validate. -/
def regNone : String → Option Rule := fun _ => none

/-- A rule registry on which every rule source compiles to a rule matching
every record. -/
def regAll : String → Option Rule := fun _ => some (fun _ => true)

/-- A readable rule source with a displayable filename. -/
def ruleSrcA : RuleSource := ⟨"rules/r1.yml", some "rule text", some "r1.yml"⟩

/-- A second readable rule source with a displayable filename. -/
def ruleSrcB : RuleSource := ⟨"rules/r2.yml", some "other text", some "r2.yml"⟩

/-- An output-file location that is free to create: no existing file, parent
directory present, no other OS failure, writes succeed. -/
def freshState : FileState := ⟨false, true, none, false, []⟩

/-- Command line for refuting C1: one rule path supplied (which the registry
will reject), records arriving on stdin, no output path, processing mode. -/
def optC1 : Opt := ⟨[ruleSrcA], none, false, false, .stdout⟩

/-- Command line for refuting C2: validate-only mode with --overwrite and an
--output path at which a file with contents ["old line"] already exists. -/
def optC2 : Opt := ⟨[ruleSrcA], none, true, true, .file "out.json" ⟨true, true, none, false, ["old line"]⟩⟩

/-- Rule table for refuting C3: a validated rule followed by a rule whose
source failed to validate. -/
def tableC3 : ValidatedRules := [(some (fun _ => true), "r1.yml"), (none, "r2.yml")]

/-- Fixtures for the C7 witness: a sink whose only file rejects writes, and a
table whose only rule matches every record. -/
def outC7 : Option Output := some (.files [(⟨[], true⟩, "r1.yml")])

/-- Rule table for the C7 witness. -/
def tableC7 : ValidatedRules := [(some (fun _ => true), "r1.yml")]

/-- Two-file input for the C4 witness. -/
def inputA : InputFile := ⟨"a.jsonl", .ok ["1\n"]⟩

/-- Second input file for the C4 witness. -/
def inputB : InputFile := ⟨"b.jsonl", .ok ["2\n", "3\n"]⟩

/-- Helper: a successful loadRules records exactly one table entry per
attempted rule source. -/
theorem loadRules_ok_length (reg : String → Option Rule) (rs : List RuleSource)
    (t : ValidatedRules) (h : loadRules reg rs = .ok t) : t.length = rs.length := by
  induction rs generalizing t with
  | nil =>
    simp only [loadRules] at h
    cases h
    rfl
  | cons hd tl ih =>
    cases hc : hd.content with
    | none => simp [loadRules, hc] at h
    | some text =>
      cases hf : hd.fileName with
      | none => simp [loadRules, hc, hf] at h
      | some f =>
        simp only [loadRules, hc, hf] at h
        cases hrec : loadRules reg tl with
        | error e => rw [hrec] at h; simp [Except.map] at h
        | ok v =>
          rw [hrec] at h
          simp only [Except.map, Except.ok.injEq] at h
          subst h
          simp [ih v hrec]

/-- Helper: a successful Opt::validate_rules got its rule table from the
rule-loading loop. -/
theorem validate_rules_ok_loadRules (reg : String → Option Rule)
    (stdinLines : List String) (o : Opt) (inp : Input) (out : Output)
    (t : ValidatedRules) (h : Opt.validate_rules reg stdinLines o = .ok (inp, out, t)) :
    loadRules reg o.rules = .ok t := by
  cases hl : loadRules reg o.rules with
  | error e => simp [Opt.validate_rules, hl] at h
  | ok v =>
    cases hi : mkInnerInput o.input stdinLines with
    | error e => simp [Opt.validate_rules, hl, hi] at h
    | ok i2 =>
      cases ho : mkInnerOutput o.overwrite v o.output with
      | error e => simp [Opt.validate_rules, hl, hi, ho] at h
      | ok o2 =>
        by_cases he : v.isEmpty
        · simp [Opt.validate_rules, hl, hi, ho, he] at h
        · simp only [Opt.validate_rules, hl, hi, ho, he, Bool.false_eq_true, ite_false,
            Except.ok.injEq, Prod.mk.injEq] at h
          rw [h.2.2]

/-- C9: an input line whose content after trimming the trailing terminator is
empty is still handed to the decoder — the Record Source yields the item
produced by decoding the empty string, which is a decode error, and never
silently skips the blank line. -/
theorem c9_blank_line_decoded (paths : List InputFile) (rest : List String)
    (line : String) (h : trimEnd line = "") :
    filesNext paths (line :: rest) = some (from_str "", (paths, rest))
    ∧ (from_str "").isOk = false := by
  constructor
  · simp [filesNext, h]
  · decide

/-- Witness for C9 at the concrete blank line, a bare line terminator. -/
theorem c9_witness : trimEnd "\n" = ""
    ∧ (filesNext [] ["\n"] = some (from_str "", ([], [])) ∧ (from_str "").isOk = false) :=
  ⟨by decide, c9_blank_line_decoded [] [] "\n" (by decide)⟩

/-- Helper: with no failing handles, the output_match write loop appends the
serialized record to exactly the entries whose stored name matches the rule
name or when the set has exactly one entry, and succeeds. -/
theorem writeEntries_all_good (line r : String) (len : Nat) (l : List (OutFile × String))
    (hgood : ∀ e ∈ l, e.1.writeFails = false) :
    writeEntries line r len l
      = (l.map (fun e =>
          if e.2 = r ∨ len = 1
          then (⟨e.1.written ++ [line], e.1.writeFails⟩, e.2) else e),
         .ok ()) := by
  induction l with
  | nil => simp [writeEntries]
  | cons hd tl ih =>
    obtain ⟨file, filename⟩ := hd
    have hhd : file.writeFails = false := hgood (file, filename) (List.mem_cons_self _ _)
    have htl : ∀ e ∈ tl, e.1.writeFails = false :=
      fun e he => hgood e (List.mem_cons_of_mem _ he)
    by_cases hc : filename = r ∨ len = 1
    · simp [writeEntries, hc, hhd, ih htl]
    · simp [writeEntries, hc, ih htl]

/-- C5: routing of a dispatched match in the file-set sink.  The condition of
the write (stored name equals the rule name, or the set has exactly one
entry) means a singleton file set receives the record regardless of the
supplied rule name, and a multi-entry set receives it exactly at the entries
whose stored name equals the rule name, all other entries left unchanged. -/
theorem c5_sink_routing (o : List (OutFile × String)) (j : Json) (r : String)
    (hgood : ∀ e ∈ o, e.1.writeFails = false) :
    Opt.output_match (some (.files o)) j r
      = (some (.files (o.map (fun e =>
          if e.2 = r ∨ o.length = 1
          then (⟨e.1.written ++ [Json.toString j], e.1.writeFails⟩, e.2) else e))),
         .ok ()) := by
  simp [Opt.output_match, writeEntries_all_good _ _ _ _ hgood]

/-- Witness for C5 on a two-entry file set with rule name "b": only the entry
named "b" receives the record. -/
theorem c5_witness : (∀ e ∈ [((⟨[], false⟩ : OutFile), "a"), (⟨[], false⟩, "b")],
      e.1.writeFails = false)
    ∧ Opt.output_match (some (.files [(⟨[], false⟩, "a"), (⟨[], false⟩, "b")])) .null "b"
      = (some (.files ([((⟨[], false⟩ : OutFile), "a"), (⟨[], false⟩, "b")].map (fun e =>
          if e.2 = "b" ∨ [((⟨[], false⟩ : OutFile), "a"), (⟨[], false⟩, "b")].length = 1
          then (⟨e.1.written ++ [Json.toString .null], e.1.writeFails⟩, e.2) else e))),
         .ok ()) :=
  ⟨by decide, c5_sink_routing [(⟨[], false⟩, "a"), (⟨[], false⟩, "b")] .null "b" (by decide)⟩

/-- C10: supplying --input with an empty path list makes startup abort with
exit status 1, and the message wrongly speaks of missing rule files rather
than missing input files (Vec::pop on the empty list hits the error arm that
was written for the rules option). -/
theorem c10_empty_input_list (reg : String → Option Rule) (stdinLines : List String)
    (o : Opt) (t : ValidatedRules)
    (hin : o.input = some [])
    (hrules : loadRules reg o.rules = .ok t) :
    Opt.validate_rules reg stdinLines o
      = .error "No rule files provided, use -r or --rules to specify one or more rules"
    ∧ runMain reg stdinLines o
      = ⟨1, [], ["No rule files provided, use -r or --rules to specify one or more rules"],
         none, 0⟩ := by
  have h1 : Opt.validate_rules reg stdinLines o
      = .error "No rule files provided, use -r or --rules to specify one or more rules" := by
    simp [Opt.validate_rules, hrules, mkInnerInput, hin]
  exact ⟨h1, by simp [runMain, h1]⟩

/-- Witness for C10: no rule paths, --input supplied with zero paths. -/
theorem c10_witness : (Opt.mk [] (some []) false false .stdout).input = some []
    ∧ loadRules regNone [] = .ok []
    ∧ (Opt.validate_rules regNone [] (Opt.mk [] (some []) false false .stdout)
        = .error "No rule files provided, use -r or --rules to specify one or more rules"
      ∧ runMain regNone [] (Opt.mk [] (some []) false false .stdout)
        = ⟨1, [],
           ["No rule files provided, use -r or --rules to specify one or more rules"],
           none, 0⟩) :=
  ⟨rfl, rfl, c10_empty_input_list regNone [] _ [] rfl rfl⟩

/-- C7: a fatal write failure while dispatching a record (output_match
returning Err(Some(e))) makes the main loop report it and exit the process
with status 1 at once: the result is independent of all remaining records,
exactly one record was pulled, and the exit status is 1. -/
theorem c7_write_failure_fatal (out : Option Output) (table : ValidatedRules) (j : Json)
    (out2 : Option Output) (e : String)
    (h : processRecord out table j = (out2, some e)) (rest : List (Except String Json)) :
    mainLoop out table (.ok j :: rest)
      = ⟨out2, ["An error occured whilst outputting data, " ++ e], some 1, 1⟩ := by
  simp [mainLoop, h]

/-- Witness for C7: a matching rule over a file set whose only handle rejects
writes; the two pending records after the failing one are never processed. -/
theorem c7_witness : processRecord outC7 tableC7 .null = (outC7, some "write error")
    ∧ mainLoop outC7 tableC7 [.ok .null, .ok .null, .error "late"]
      = ⟨outC7, ["An error occured whilst outputting data, " ++ "write error"], some 1, 1⟩ :=
  ⟨by decide, c7_write_failure_fatal outC7 tableC7 .null outC7 "write error" (by decide)
      [.ok .null, .error "late"]⟩

/-- C8: a decode failure or single-line read error item is reported on stderr
and the loop simply continues: the rest of the run is unchanged (same final
sink, same exit behaviour, one more record counted), and a run consisting
only of error items drains the whole source with no abort (exit code none,
every error reported in order). -/
theorem c8_decode_errors_nonfatal (out : Option Output) (table : ValidatedRules)
    (e : String) (rest : List (Except String Json)) (errs : List String) :
    mainLoop out table (.error e :: rest)
      = ⟨(mainLoop out table rest).out, e :: (mainLoop out table rest).stderrLines,
         (mainLoop out table rest).exitCode, (mainLoop out table rest).processed + 1⟩
    ∧ mainLoop out table (errs.map Except.error) = ⟨out, errs, none, errs.length⟩ := by
  constructor
  · simp [mainLoop]
  · induction errs with
    | nil => simp [mainLoop]
    | cons hd tl ih => simp [mainLoop, ih]

/-- Counterexample to C1: one rule path was supplied and the registry rejects
it, yet startup does not abort — the rejected rule is still pushed as a
(None, name) entry, so validated_rules is non-empty, the is_empty abort never
fires, a stdin record is pulled and processed, and the process exits 0.
(The supplied record matches no rule, so the stdout sink stays empty.) -/
theorem c1_cex : runMain regNone ["null"] optC1
    = ⟨0, [], [], some (.commandLine ⟨[], false⟩), 1⟩ := rfl

/-- Counterexample to C2: in validate-only mode with --output pointing at an
existing file holding the line "old line" and --overwrite set, the run exits 0
and prints the report, but the final output state is an open handle with empty
contents: the pre-existing file was opened and truncated during startup,
before the validate flag was ever consulted. -/
theorem c2_cex : optC2.validate = true
    ∧ optC2.output = .file "out.json" ⟨true, true, none, false, ["old line"]⟩
    ∧ runMain regAll [] optC2
      = ⟨0, ["Rule Name, Is Valid", "r1.yml, true"], [], some (.files [(⟨[], false⟩, "")]), 0⟩ :=
  ⟨rfl, rfl, rfl⟩

/-- Counterexample to C3: in directory output mode, the entry "r2.yml" whose
rule failed to validate (rule None) still gets a pre-created output file —
the creation loop runs over every validated_rules entry, not only the Some
ones. -/
theorem c3_cex : mkInnerOutput false tableC3 (.dir "out" (fun _ => freshState))
    = .ok (.files [(⟨[], false⟩, "r1.yml"), (⟨[], false⟩, "r2.yml")]) := rfl

/-- Counterexample to C6: in single-file output mode, two different failure
causes — the target already exists without --overwrite, and the parent path
missing — produce the identical generic message, so opening failures are not
classified into distinct messages for every destination file. -/
theorem c6_cex : mkInnerOutput false [] (.file "out.json" ⟨true, true, none, false, ["x"]⟩)
      = .error "Could not create output file at out.json"
    ∧ mkInnerOutput false [] (.file "out.json" ⟨false, false, none, false, []⟩)
      = .error "Could not create output file at out.json" :=
  ⟨rfl, rfl⟩

/-- C1 (amended): when rule paths were supplied (each readable with a
displayable filename) startup does not abort at the validation step even if
every rule failed to compile or validate — every attempted rule is pushed as
a table entry (rule None included), so the table has one entry per path and
the is_empty abort, which fires exactly when the table is empty, is not
taken. -/
theorem c1_amended (reg : String → Option Rule) (stdinLines : List String) (o : Opt)
    (t : ValidatedRules) (inp : Input) (out : Output)
    (hne : o.rules ≠ [])
    (ht : loadRules reg o.rules = .ok t)
    (hin : mkInnerInput o.input stdinLines = .ok inp)
    (hout : mkInnerOutput o.overwrite t o.output = .ok out) :
    Opt.validate_rules reg stdinLines o = .ok (inp, out, t)
    ∧ t.length = o.rules.length := by
  have hlen := loadRules_ok_length reg o.rules t ht
  have hte : t ≠ [] := by
    intro h0
    rw [h0] at hlen
    exact hne (List.length_eq_zero.mp hlen.symm)
  refine ⟨?_, hlen⟩
  simp [Opt.validate_rules, ht, hin, hout, List.isEmpty_iff, hte]

/-- Witness for C1 (amended): a single rule path that the registry rejects;
startup succeeds with the one-entry table [(None, "r1.yml")]. -/
theorem c1_amended_witness :
    ((Opt.mk [ruleSrcA] none false false .stdout).rules ≠ []
    ∧ loadRules regNone [ruleSrcA] = .ok [(none, "r1.yml")]
    ∧ mkInnerInput none [] = .ok (.commandLine [])
    ∧ mkInnerOutput false [(none, "r1.yml")] .stdout = .ok (.commandLine ⟨[], false⟩))
    ∧ (Opt.validate_rules regNone [] (Opt.mk [ruleSrcA] none false false .stdout)
        = .ok (.commandLine [], .commandLine ⟨[], false⟩, [(none, "r1.yml")])
      ∧ ([((none : Option Rule), "r1.yml")]).length = [ruleSrcA].length) :=
  ⟨⟨by decide, rfl, rfl, rfl⟩,
   c1_amended regNone [] (Opt.mk [ruleSrcA] none false false .stdout)
     [(none, "r1.yml")] (.commandLine []) (.commandLine ⟨[], false⟩)
     (by decide) rfl rfl rfl⟩

/-- C2 (amended): with the validate flag set (and startup succeeding), the
program prints one (rule name, is valid) row for every rule-table entry — one
per attempted rule — and exits 0 without pulling a single record; however the
Record Source and Match Sink were already constructed by validate_rules, so
input opening and output creation/truncation have already happened. -/
theorem c2_amended (reg : String → Option Rule) (stdinLines : List String) (o : Opt)
    (inp : Input) (out : Output) (t : ValidatedRules)
    (hv : o.validate = true)
    (h : Opt.validate_rules reg stdinLines o = .ok (inp, out, t)) :
    runMain reg stdinLines o
      = ⟨0, "Rule Name, Is Valid" ::
            t.map (fun e => e.2 ++ ", " ++ cond e.1.isSome "true" "false"),
         [], some out, 0⟩
    ∧ t.length = o.rules.length := by
  refine ⟨?_, loadRules_ok_length reg o.rules t
    (validate_rules_ok_loadRules reg stdinLines o inp out t h)⟩
  simp [runMain, h, hv]

/-- Witness for C2 (amended): validate-only over two rule paths the registry
rejects; two report rows, exit 0, zero records pulled. -/
theorem c2_amended_witness :
    ((Opt.mk [ruleSrcA, ruleSrcB] none false true .stdout).validate = true
    ∧ Opt.validate_rules regNone [] (Opt.mk [ruleSrcA, ruleSrcB] none false true .stdout)
        = .ok (.commandLine [], .commandLine ⟨[], false⟩, [(none, "r1.yml"), (none, "r2.yml")]))
    ∧ (runMain regNone [] (Opt.mk [ruleSrcA, ruleSrcB] none false true .stdout)
        = ⟨0, "Rule Name, Is Valid" ::
              ([((none : Option Rule), "r1.yml"), (none, "r2.yml")]).map
                (fun e => e.2 ++ ", " ++ cond e.1.isSome "true" "false"),
           [], some (.commandLine ⟨[], false⟩), 0⟩
      ∧ ([((none : Option Rule), "r1.yml"), (none, "r2.yml")]).length
          = [ruleSrcA, ruleSrcB].length) :=
  ⟨⟨rfl, rfl⟩,
   c2_amended regNone [] (Opt.mk [ruleSrcA, ruleSrcB] none false true .stdout)
     (.commandLine []) (.commandLine ⟨[], false⟩) [(none, "r1.yml"), (none, "r2.yml")]
     rfl rfl⟩

/-- Helper: a successful output-file open yields a fresh empty handle
(create or truncate). -/
theorem openOutputFile_ok_written (ow : Bool) (st : FileState) (f : OutFile)
    (h : openOutputFile ow st = .ok f) : f.written = [] := by
  unfold openOutputFile at h
  split at h
  · cases h
  · split at h
    · cases h
    · cases hos : st.osErr with
      | some k => rw [hos] at h; cases h
      | none => rw [hos] at h; cases h; rfl

/-- C3 (amended): in directory output mode a successful setup pre-creates,
before any record is processed, exactly one (empty) destination file per
entry of the rule table — including entries whose rule is None — named after
each entry's rule source filename, in table order. -/
theorem c3_amended (overwrite : Bool) (d : String) (ent : String → FileState)
    (table : ValidatedRules) (files : List (OutFile × String))
    (h : mkDirFiles overwrite d ent table = .ok files) :
    files.map Prod.snd = table.map Prod.snd
    ∧ ∀ e ∈ files, e.1.written = [] := by
  induction table generalizing files with
  | nil =>
    simp only [mkDirFiles, Except.ok.injEq] at h
    subst h
    simp
  | cons hd tl ih =>
    obtain ⟨rule, filename⟩ := hd
    simp only [mkDirFiles] at h
    cases ho : openOutputFile overwrite (ent filename) with
    | error k => rw [ho] at h; cases h
    | ok f =>
      rw [ho] at h
      cases hrec : mkDirFiles overwrite d ent tl with
      | error e => rw [hrec] at h; cases h
      | ok v =>
        rw [hrec] at h
        simp only [Except.map, Except.ok.injEq] at h
        subst h
        obtain ⟨ih1, ih2⟩ := ih v hrec
        have hw : f.written = [] := openOutputFile_ok_written overwrite (ent filename) f ho
        constructor
        · simp [ih1]
        · intro e he
          rcases List.mem_cons.mp he with h1 | h2
          · rw [h1]; exact hw
          · exact ih2 e h2

/-- Witness for C3 (amended) on the table of one validated and one
unvalidated rule: both names get a fresh file. -/
theorem c3_amended_witness :
    mkDirFiles false "out" (fun _ => freshState) tableC3
      = .ok [(⟨[], false⟩, "r1.yml"), (⟨[], false⟩, "r2.yml")]
    ∧ (([((⟨[], false⟩ : OutFile), "r1.yml"), (⟨[], false⟩, "r2.yml")]).map Prod.snd
        = tableC3.map Prod.snd
      ∧ ∀ e ∈ [((⟨[], false⟩ : OutFile), "r1.yml"), (⟨[], false⟩, "r2.yml")],
          e.1.written = []) :=
  ⟨rfl, c3_amended false "out" (fun _ => freshState) tableC3
     [(⟨[], false⟩, "r1.yml"), (⟨[], false⟩, "r2.yml")] rfl⟩

/-- C6 (amended): the three-way classification of output-open failures
(already exists / parent missing / other OS error) exists only in directory
output mode, where the three causes produce pairwise distinct messages; in
single-file mode every failure cause collapses to the one generic
"Could not create output file" message; with the overwrite flag an existing
file is opened with truncation and setup succeeds, yielding an empty handle. -/
theorem c6_amended (d f : String) :
    (dirErrMsg d f .alreadyExists ≠ dirErrMsg d f .notFound)
    ∧ (dirErrMsg d f .alreadyExists ≠ dirErrMsg d f .permissionDenied)
    ∧ (dirErrMsg d f .notFound ≠ dirErrMsg d f .permissionDenied)
    ∧ (∀ wf contents, openOutputFile true ⟨true, true, none, wf, contents⟩ = .ok ⟨[], wf⟩)
    ∧ (∀ t wf c, mkInnerOutput false t (.file d ⟨true, true, none, wf, c⟩)
        = .error ("Could not create output file at " ++ d))
    ∧ (∀ t wf c p, mkInnerOutput false t (.file d ⟨p, false, none, wf, c⟩)
        = .error ("Could not create output file at " ++ d)) := by
  have l1 : (" already exists, either remove this file or re-run with the -f / --overwrite flag " : String).length = 82 := rfl
  have l2 : ("Part of the path to " : String).length = 20 := rfl
  have l3 : (" does not exist" : String).length = 15 := rfl
  have l0 : ("/" : String).length = 1 := rfl
  have hj : (joinPath d f).length = d.length + 1 + f.length := by
    simp [joinPath, String.length_append, l0]
  have hAE : (dirErrMsg d f .alreadyExists).length = (joinPath d f).length + 82 := by
    simp [dirErrMsg, String.length_append, l1]
  have hNF : (dirErrMsg d f .notFound).length = 20 + (joinPath d f).length + 15 := by
    simp [dirErrMsg, String.length_append, l2, l3]
  have hPD : (dirErrMsg d f .permissionDenied).length = 16 := rfl
  refine ⟨?_, ?_, ?_, fun wf contents => rfl, fun t wf c => rfl, fun t wf c p => rfl⟩
  · intro h
    have hl := congrArg String.length h
    rw [hAE, hNF] at hl
    omega
  · intro h
    have hl := congrArg String.length h
    rw [hAE, hPD] at hl
    omega
  · intro h
    have hl := congrArg String.length h
    rw [hNF, hPD] at hl
    omega

/-- Witness for C6 (amended) at a concrete directory and filename. -/
theorem c6_amended_witness :
    (dirErrMsg "out" "r1.yml" .alreadyExists ≠ dirErrMsg "out" "r1.yml" .notFound)
    ∧ (dirErrMsg "out" "r1.yml" .alreadyExists ≠ dirErrMsg "out" "r1.yml" .permissionDenied)
    ∧ (dirErrMsg "out" "r1.yml" .notFound ≠ dirErrMsg "out" "r1.yml" .permissionDenied)
    ∧ (∀ wf contents, openOutputFile true ⟨true, true, none, wf, contents⟩ = .ok ⟨[], wf⟩)
    ∧ (∀ t wf c, mkInnerOutput false t (.file "out.json" ⟨true, true, none, wf, c⟩)
        = .error ("Could not create output file at " ++ "out.json"))
    ∧ (∀ t wf c p, mkInnerOutput false t (.file "out.json" ⟨p, false, none, wf, c⟩)
        = .error ("Could not create output file at " ++ "out.json")) :=
  ⟨(c6_amended "out" "r1.yml").1, (c6_amended "out" "r1.yml").2.1,
   (c6_amended "out" "r1.yml").2.2.1, (c6_amended "out" "r1.yml").2.2.2.1,
   (c6_amended "out.json" "r1.yml").2.2.2.2.1, (c6_amended "out.json" "r1.yml").2.2.2.2.2⟩

/-- Helper: over readable files, draining the file chain yields exactly the
decode of every line of the current buffer followed by the lines of the
pending files in reverse (stack) order. -/
theorem filesRun_all_ok : ∀ (paths : List InputFile) (buffer : List String),
    (∀ f ∈ paths, f.content.isOk = true) →
    filesRun paths buffer
      = (buffer ++ (paths.reverse.map fileLines).flatten).map
          (fun l => from_str (trimEnd l)) := by
  intro paths buffer
  induction paths, buffer using filesRun.induct with
  | case1 paths line rest ih =>
    intro hok
    simp only [filesRun, ih hok, List.cons_append, List.map_cons]
  | case2 =>
    intro _
    simp [filesRun]
  | case3 q qs ls h ih =>
    intro hok
    have hne : q :: qs ≠ [] := by simp
    have hok2 : ∀ f ∈ (q :: qs).dropLast, f.content.isOk = true :=
      fun f hf => hok f (List.dropLast_subset _ hf)
    have hrev : (q :: qs).reverse = (q :: qs).getLast hne :: (q :: qs).dropLast.reverse := by
      conv_lhs => rw [← List.dropLast_append_getLast hne]
      simp [List.reverse_append]
    have hstep : filesRun (q :: qs) [] = filesRun (q :: qs).dropLast ls := by
      simp only [filesRun, h]
    rw [hstep, ih hok2, hrev]
    simp only [List.map_cons, List.flatten_cons, List.nil_append]
    have hfl : fileLines ((q :: qs).getLast hne) = ls := by
      simp [fileLines, h]
    rw [hfl]
  | case4 q qs m h ih =>
    intro hok
    have hmem := hok _ (List.getLast_mem (by simp : q :: qs ≠ []))
    rw [h] at hmem
    simp [Except.isOk, Except.toBool] at hmem

/-- C4: with N input files supplied (all readable), the Record Source pops the
last-supplied file as the initially open buffer; draining it yields exactly
one item (record or decode error) per line — so the item count equals the
total line count over all files — and the items appear file-by-file in
reverse supply order: the last-supplied file is exhausted completely before
any earlier file's lines appear. -/
theorem c4_stack_order_and_count (v : List InputFile) (stdinLines : List String)
    (p0 : InputFile) (ls0 : List String)
    (hlast : v.getLast? = some p0) (h0 : p0.content = .ok ls0)
    (hok : ∀ f ∈ v, f.content.isOk = true) :
    mkInnerInput (some v) stdinLines = .ok (.files v.dropLast ls0)
    ∧ Input.run (.files v.dropLast ls0)
        = ((v.reverse.map fileLines).flatten).map (fun l => from_str (trimEnd l))
    ∧ (Input.run (.files v.dropLast ls0)).length
        = (v.map (fun f => (fileLines f).length)).sum := by
  have hne : v ≠ [] := by
    intro h
    rw [h] at hlast
    simp at hlast
  have hgl : v.getLast hne = p0 := by
    have h2 := List.getLast?_eq_getLast_of_ne_nil hne
    rw [hlast] at h2
    exact (Option.some.inj h2).symm
  have hfl : fileLines p0 = ls0 := by simp [fileLines, h0]
  have hrev : v.reverse = p0 :: v.dropLast.reverse := by
    conv_lhs => rw [← List.dropLast_append_getLast hne]
    simp [List.reverse_append, hgl]
  have hok2 : ∀ f ∈ v.dropLast, f.content.isOk = true :=
    fun f hf => hok f (List.dropLast_subset _ hf)
  have hrun : Input.run (.files v.dropLast ls0)
      = ((v.reverse.map fileLines).flatten).map (fun l => from_str (trimEnd l)) := by
    show filesRun v.dropLast ls0 = _
    rw [filesRun_all_ok v.dropLast ls0 hok2, hrev]
    simp [hfl]
  refine ⟨?_, hrun, ?_⟩
  · simp [mkInnerInput, hlast, h0]
  · rw [hrun]
    simp only [List.length_map, List.length_flatten, List.map_map, List.map_reverse,
      List.sum_reverse]
    rfl

/-- Witness for C4: files [a.jsonl (1 line), b.jsonl (2 lines)]; the three
items are b's two lines then a's line, and the count is 3. -/
theorem c4_witness :
    ([inputA, inputB].getLast? = some inputB
    ∧ inputB.content = .ok ["2\n", "3\n"]
    ∧ ∀ f ∈ [inputA, inputB], f.content.isOk = true)
    ∧ (mkInnerInput (some [inputA, inputB]) []
        = .ok (.files [inputA, inputB].dropLast ["2\n", "3\n"])
      ∧ Input.run (.files [inputA, inputB].dropLast ["2\n", "3\n"])
          = (([inputA, inputB].reverse.map fileLines).flatten).map
              (fun l => from_str (trimEnd l))
      ∧ (Input.run (.files [inputA, inputB].dropLast ["2\n", "3\n"])).length
          = ([inputA, inputB].map (fun f => (fileLines f).length)).sum) :=
  ⟨⟨by decide, rfl, by decide⟩,
   c4_stack_order_and_count [inputA, inputB] [] inputB ["2\n", "3\n"]
     (by decide) rfl (by decide)⟩
